import Mathlib

/-!
Shallow embedding of the stream_recorder transmission-detection engine.

The frame-level Boundary Detector is embedded from
`archive/old_files/audio_processor.py` (`AudioProcessor.simple_vad`,
`AudioProcessor.process_frame`), the segment-level strategy, backoff and
worker bookkeeping from `audio_recorder.py` (`AudioRecorder`), and the
auto-tuner from `archive/old_files/vad_auto_tuner.py` (`VadAutoTuner`).
Audio samples are rationals; machine floats are modelled by exact `ℚ`
arithmetic.
-/

/-- A PCM frame: a list of (normalized) samples. -/
abbrev Frame := List ℚ

/-- Detector configuration, mirroring the fields `AudioProcessor.__init__`
derives from `config` / `channel_config['vad']`.  `hang_time_frames` and
`preroll_frames` are stored pre-derived, as in the Python constructor. -/
structure VadConfig where
  energy_threshold : ℚ
  zcr_min : ℚ
  zcr_max : ℚ
  speech_frames_to_start : ℕ
  hang_time_frames : ℕ
  preroll_frames : ℕ
  min_transmission_ms : ℚ
  max_transmission_ms : ℚ
  target_sample_rate : ℕ
  deriving Repr

/-- `np.sign` on one sample. -/
def qsign (x : ℚ) : ℚ := if 0 < x then 1 else if x < 0 then -1 else 0

/-- Sum of absolute successive differences, `np.sum(np.abs(np.diff(l)))`. -/
def sumAbsDiff : List ℚ → ℚ
  | a :: b :: rest => |b - a| + sumAbsDiff (b :: rest)
  | _ => 0

/-- `energy = np.sum(frame**2)` from `simple_vad`. -/
def frameEnergy (frame : Frame) : ℚ := (frame.map fun x => x * x).sum

/-- `zero_crossing_rate = np.sum(np.abs(np.diff(np.sign(frame)))) / len(frame)`
from `simple_vad` (division by zero yields 0, as the Python exception path
classifies the frame as non-speech anyway). -/
def frameZcr (frame : Frame) : ℚ := sumAbsDiff (frame.map qsign) / frame.length

/-- `AudioProcessor.simple_vad`: speech iff
`energy > energy_threshold ∧ zcr_min < zcr < zcr_max`. -/
def simple_vad (cfg : VadConfig) (frame : Frame) : Bool :=
  decide (cfg.energy_threshold < frameEnergy frame) &&
  decide (cfg.zcr_min < frameZcr frame) &&
  decide (frameZcr frame < cfg.zcr_max)

/-- Mutable state of `AudioProcessor` relevant to `process_frame`. -/
structure ProcState where
  preroll_buffer : List Frame
  current_transmission : Option (List ℚ)
  speech_frame_count : ℕ
  silence_frame_count : ℕ
  is_in_transmission : Bool
  deriving Repr

/-- State after `AudioProcessor.__init__` / `reset_state`. -/
def initState : ProcState :=
  { preroll_buffer := []
    current_transmission := none
    speech_frame_count := 0
    silence_frame_count := 0
    is_in_transmission := false }

/-- The preroll-buffer maintenance step (`process_frame`, end of body):
append the frame, then pop the oldest entry if over capacity. -/
def pushPreroll (capacity : ℕ) (buf : List Frame) (frame : Frame) : List Frame :=
  let b := buf ++ [frame]
  if capacity < b.length then b.drop 1 else b

/-- `transmission_length_ms = len(audio) * 1000 / target_sample_rate`. -/
def durationMs (cfg : VadConfig) (sampleCount : ℕ) : ℚ :=
  (sampleCount * 1000 : ℚ) / (cfg.target_sample_rate : ℚ)

/-- The duration filter of `process_frame`:
`min_transmission_ms <= transmission_length_ms <= max_transmission_ms`. -/
def lengthOk (cfg : VadConfig) (sampleCount : ℕ) : Bool :=
  decide (cfg.min_transmission_ms ≤ durationMs cfg sampleCount) &&
  decide (durationMs cfg sampleCount ≤ cfg.max_transmission_ms)

/-- `AudioProcessor.process_frame`, one frame: returns the updated state and
the completed transmission, if one was emitted.  Mirrors the Python control
flow, including the early `return transmission_audio` that skips the
preroll-buffer maintenance on the emitting path. -/
def process_frame (cfg : VadConfig) (s : ProcState) (frame : Frame) :
    ProcState × Option (List ℚ) :=
  if simple_vad cfg frame then
    let sc := s.speech_frame_count + 1
    let startNow := !s.is_in_transmission && decide (cfg.speech_frames_to_start ≤ sc)
    let inTx := s.is_in_transmission || startNow
    let tx0 := if startNow then some s.preroll_buffer.flatten else s.current_transmission
    let tx := if inTx then tx0.map (· ++ frame) else tx0
    ({ preroll_buffer := pushPreroll cfg.preroll_frames s.preroll_buffer frame
       current_transmission := tx
       speech_frame_count := sc
       silence_frame_count := 0
       is_in_transmission := inTx }, none)
  else
    let sil := s.silence_frame_count + 1
    let sc := s.speech_frame_count - 1
    if s.is_in_transmission then
      let tx := s.current_transmission.map (· ++ frame)
      if cfg.hang_time_frames ≤ sil then
        let audio := tx.getD []
        if lengthOk cfg audio.length then
          ({ preroll_buffer := s.preroll_buffer
             current_transmission := none
             speech_frame_count := 0
             silence_frame_count := 0
             is_in_transmission := false }, some audio)
        else
          ({ preroll_buffer := pushPreroll cfg.preroll_frames s.preroll_buffer frame
             current_transmission := none
             speech_frame_count := 0
             silence_frame_count := 0
             is_in_transmission := false }, none)
      else
        ({ preroll_buffer := pushPreroll cfg.preroll_frames s.preroll_buffer frame
           current_transmission := tx
           speech_frame_count := sc
           silence_frame_count := sil
           is_in_transmission := true }, none)
    else
      ({ preroll_buffer := pushPreroll cfg.preroll_frames s.preroll_buffer frame
         current_transmission := s.current_transmission
         speech_frame_count := sc
         silence_frame_count := sil
         is_in_transmission := false }, none)

/-- Feed a list of frames through `process_frame`, keeping the state. -/
def runFrames (cfg : VadConfig) (s : ProcState) : List Frame → ProcState
  | [] => s
  | f :: fs => runFrames cfg (process_frame cfg s f).1 fs

/-- The frames of a run that reach the preroll-maintenance code (all frames
except those whose call emits a completed transmission). -/
def pushedFrames (cfg : VadConfig) (s : ProcState) : List Frame → List Frame
  | [] => []
  | f :: fs =>
      (if (process_frame cfg s f).2.isSome then [] else [f]) ++
      pushedFrames cfg (process_frame cfg s f).1 fs

/-- The last `n` elements of a list. -/
def takeLast (n : ℕ) (l : List Frame) : List Frame := l.drop (l.length - n)

/-- Python `int()` applied to a rational: truncation toward zero. -/
def pyInt (q : ℚ) : ℤ := if q < 0 then ⌈q⌉ else ⌊q⌋

/-- `self.hang_time_frames = int(self.hang_time_ms / self.frame_duration_ms)`
from `AudioProcessor.__init__`. -/
def hangTimeFramesOf (hang_time_ms frame_duration_ms : ℚ) : ℤ :=
  pyInt (hang_time_ms / frame_duration_ms)

/-! ## Channel worker: backoff (`AudioRecorder.stream_recorder`) -/

/-- `self.max_consecutive_failures = 5` from `AudioRecorder.__init__`. -/
def max_consecutive_failures : ℕ := 5

/-- The backoff delay computed in `stream_recorder` from the consecutive
failure count, in seconds: exponential once at/above
`max_consecutive_failures`, progressive below. -/
def backoffDelay (failure_count : ℕ) : ℕ :=
  if max_consecutive_failures ≤ failure_count then
    min 300 (30 * 2 ^ min (failure_count - max_consecutive_failures) 4)
  else
    min 60 (5 * failure_count)

/-- Delays produced by the first `k` consecutive failures of a fresh
channel worker (the counter is incremented before the delay is computed). -/
def delaysOfRun (k : ℕ) : List ℕ := (List.range k).map fun i => backoffDelay (i + 1)

/-! ## Segment-level strategy (`AudioRecorder.process_complete_segment`) -/

/-- `merge_gap_threshold = 2000` (ms), the hard-coded merge gap in
`process_complete_segment`. -/
def merge_gap_threshold : ℤ := 2000

/-- One iteration of the merging loop in `process_complete_segment`:
extend the previous merged range if this range starts less than
`merge_gap_threshold` ms after it ends, else append it. -/
def mergeStep (acc : List (ℤ × ℤ)) (r : ℤ × ℤ) : List (ℤ × ℤ) :=
  match acc.getLast? with
  | some p => if r.1 - p.2 < merge_gap_threshold then acc.dropLast ++ [(p.1, r.2)] else acc ++ [r]
  | none => [r]

/-- The merging loop of `process_complete_segment` over the detected
non-silent ranges. -/
def mergeRanges (ranges : List (ℤ × ℤ)) : List (ℤ × ℤ) := ranges.foldl mergeStep []

/-- Modelled from the spec: "merge runs separated by less than the
configured silence gap" — the merging loop with the channel's configured
silence gap as the threshold, for comparison with `mergeRanges`. -/
def mergeRangesSpec (silence_gap : ℤ) (ranges : List (ℤ × ℤ)) : List (ℤ × ℤ) :=
  ranges.foldl
    (fun acc r =>
      match acc.getLast? with
      | some p => if r.1 - p.2 < silence_gap then acc.dropLast ++ [(p.1, r.2)] else acc ++ [r]
      | none => [r])
    []

/-- The span-length filter of `process_complete_segment`:
`min_length <= transmission_length <= max_length`. -/
def transmissionLengthOk (min_length max_length tlen : ℤ) : Bool :=
  decide (min_length ≤ tlen) && decide (tlen ≤ max_length)

/-! ## Auto-tuner (`VadAutoTuner`) -/

/-- One `ChannelMetrics` sample, restricted to the fields consumed by
`_perform_statistical_analysis`. -/
structure MetricsSample where
  energy_level : ℚ
  zcr : ℚ
  was_recorded : Bool
  recording_duration_ms : ℤ
  speech_probability : ℚ
  deriving Repr

/-- Insert into a sorted list (ascending). -/
def insertSorted (x : ℚ) : List ℚ → List ℚ
  | [] => [x]
  | y :: ys => if x ≤ y then x :: y :: ys else y :: insertSorted x ys

/-- Ascending sort, the order `np.percentile` works over. -/
def sortQ (l : List ℚ) : List ℚ := l.foldr insertSorted []

/-- `np.percentile(l, q)` with the default linear interpolation:
position `(n-1)*q/100` between the order statistics. -/
def percentile (l : List ℚ) (q : ℚ) : ℚ :=
  let s := sortQ l
  if s.length = 0 then 0
  else
    let n := s.length
    let pos : ℚ := ((n - 1 : ℕ) : ℚ) * q / 100
    let i : ℕ := (⌊pos⌋).toNat
    let lo := s.getD i 0
    let hi := s.getD (min (i + 1) (n - 1)) 0
    lo + (pos - (i : ℚ)) * (hi - lo)

/-- `np.median` = 50th percentile. -/
def medianQ (l : List ℚ) : ℚ := percentile l 50

/-- Result of `VadAutoTuner._perform_statistical_analysis`, restricted to
the fields consumed by `_calculate_parameter_recommendations`. -/
structure TunerAnalysis where
  noise_floor : ℚ
  speech_threshold : ℚ
  false_positive_rate : ℚ
  potential_missed_rate : ℚ
  zcr_p5 : ℚ
  zcr_p95 : ℚ
  avg_recording_duration : ℚ
  short_recording_rate : ℚ
  deriving Repr

/-- `VadAutoTuner._perform_statistical_analysis`. -/
def performStatisticalAnalysis (ms : List MetricsSample) : TunerAnalysis :=
  let recorded := ms.filter (·.was_recorded)
  let notRecorded := ms.filter fun m => !m.was_recorded
  let recordedEnergy := recorded.map (·.energy_level)
  let notRecordedEnergy := notRecorded.map (·.energy_level)
  let noise_floor := if notRecordedEnergy.length = 0 then 0 else percentile notRecordedEnergy 10
  let speech_threshold := if recordedEnergy.length = 0 then 0 else medianQ recordedEnergy
  let fp := (recorded.filter fun m => m.speech_probability < 0.3).length
  let fpr : ℚ := if recorded.length = 0 then 0 else (fp : ℚ) / (recorded.length : ℚ)
  let pm := (notRecorded.filter fun m => 0.7 < m.speech_probability).length
  let pmr : ℚ := if notRecorded.length = 0 then 0 else (pm : ℚ) / (notRecorded.length : ℚ)
  let recordedZcr := recorded.map (·.zcr)
  let zcr_p5 := if recordedZcr.length = 0 then 0.05 else percentile recordedZcr 5
  let zcr_p95 := if recordedZcr.length = 0 then 0.35 else percentile recordedZcr 95
  let durations := ((recorded.filter fun m => 0 < m.recording_duration_ms).map
    (·.recording_duration_ms))
  let shortRecordings := (durations.filter fun d => d < 1000).length
  let srr : ℚ := if durations.length = 0 then 0 else (shortRecordings : ℚ) / (durations.length : ℚ)
  let avg : ℚ :=
    if durations.length = 0 then 0 else ((durations.map (fun d => (d : ℚ))).sum) / (durations.length : ℚ)
  { noise_floor := noise_floor
    speech_threshold := speech_threshold
    false_positive_rate := fpr
    potential_missed_rate := pmr
    zcr_p5 := zcr_p5
    zcr_p95 := zcr_p95
    avg_recording_duration := avg
    short_recording_rate := srr }

/-- Result of `VadAutoTuner._calculate_parameter_recommendations`:
each recommended parameter is optional, with its justification tag. -/
structure TunerRecommendations where
  energy_threshold : Option ℚ
  energy_threshold_reason : Option String
  zcr_min : Option ℚ
  zcr_max : Option ℚ
  zcr_reason : Option String
  min_transmission_ms : Option ℚ
  min_transmission_reason : Option String
  speech_frames_to_start : Option ℕ
  speech_frames_reason : Option String
  deriving Repr

/-- `VadAutoTuner._calculate_parameter_recommendations`. -/
def calcParameterRecommendations (a : TunerAnalysis) (sensitivity_factor : ℚ) :
    TunerRecommendations :=
  let eth : Option ℚ × Option String :=
    if 0.2 < a.false_positive_rate then
      (some (a.speech_threshold * 0.8), some "Reducing false positives")
    else if 0.1 < a.potential_missed_rate then
      (some (a.noise_floor * sensitivity_factor), some "Improving sensitivity")
    else (none, none)
  let zrec : Option ℚ × Option ℚ :=
    if 0 < a.zcr_p5 ∧ 0 < a.zcr_p95 then
      (some (max 0.01 (a.zcr_p5 * 0.8)), some (min 0.9 (a.zcr_p95 * 1.2)))
    else (none, none)
  let mtm : Option ℚ :=
    if 0.3 < a.short_recording_rate then some (max 1000 (a.avg_recording_duration * 0.5)) else none
  let sfs : Option ℕ × Option String :=
    if 0.15 < a.false_positive_rate then (some 8, some "Reducing false positives")
    else if 0.15 < a.potential_missed_rate then (some 3, some "Improving responsiveness")
    else (none, none)
  { energy_threshold := eth.1
    energy_threshold_reason := eth.2
    zcr_min := zrec.1
    zcr_max := zrec.2
    zcr_reason := if zrec.1.isSome then some "Optimizing for observed speech patterns" else none
    min_transmission_ms := mtm
    min_transmission_reason := if mtm.isSome then some "Reducing short recordings" else none
    speech_frames_to_start := sfs.1
    speech_frames_reason := sfs.2 }

/-- `VadAutoTuner.analyze_channel_performance`, sample-count gate included:
`none` models the empty result returned when there are fewer samples than
`min_samples_required`. -/
def analyzeChannelPerformance (ms : List MetricsSample) (min_samples_required : ℕ)
    (sensitivity_factor : ℚ) : Option (TunerAnalysis × TunerRecommendations) :=
  if ms.length < min_samples_required then none
  else
    let a := performStatisticalAnalysis ms
    some (a, calcParameterRecommendations a sensitivity_factor)

/-- A channel's `vad` configuration dict, the write target of
`VadAutoTuner.apply_auto_adjustments`. -/
structure VadParams where
  energy_threshold : ℚ
  zcr_min : ℚ
  zcr_max : ℚ
  min_transmission_ms : ℚ
  max_transmission_ms : ℚ
  speech_frames_to_start : ℕ
  deriving Repr

/-- The write loop of `apply_auto_adjustments` (lines 383-393): each
recommended parameter present in the `vad` dict is overwritten verbatim;
`max_transmission_ms` is never recommended, hence never written. -/
def applyRecommendations (v : VadParams) (r : TunerRecommendations) : VadParams :=
  { energy_threshold := r.energy_threshold.getD v.energy_threshold
    zcr_min := r.zcr_min.getD v.zcr_min
    zcr_max := r.zcr_max.getD v.zcr_max
    min_transmission_ms := r.min_transmission_ms.getD v.min_transmission_ms
    max_transmission_ms := v.max_transmission_ms
    speech_frames_to_start := r.speech_frames_to_start.getD v.speech_frames_to_start }

/-! ## Recorder lifecycle (`AudioRecorder.start_recording`) -/

/-- The recorder's per-channel bookkeeping: configured channels (id and
enabled flag), the `is_recording` flags, the `recording_threads` map
(modelled as id/thread-id pairs in creation order), and a fresh-id counter
standing for thread creation. -/
structure RecorderModel (ι : Type) where
  channels : List (ι × Bool)
  is_recording : List ι
  recording_threads : List (ι × ℕ)
  next_tid : ℕ

/-- The recorder before any `start_recording` call. -/
def initRecorder {ι : Type} (channels : List (ι × Bool)) : RecorderModel ι :=
  { channels := channels, is_recording := [], recording_threads := [], next_tid := 0 }

/-- The body of the `start_recording` loop for one channel id:
`if channel_id in self.channels and not self.is_recording.get(channel_id, False)`,
then set the flag, spawn a worker thread, and record it. -/
def startOne {ι : Type} [DecidableEq ι] (s : RecorderModel ι) (id : ι) : RecorderModel ι :=
  if (s.channels.any fun c => c.1 = id) && !(decide (id ∈ s.is_recording)) then
    { s with
      is_recording := s.is_recording ++ [id]
      recording_threads := s.recording_threads ++ [(id, s.next_tid)]
      next_tid := s.next_tid + 1 }
  else s

/-- `AudioRecorder.start_recording`: `none` means no explicit list, i.e.
all enabled channels. -/
def start_recording {ι : Type} [DecidableEq ι] (s : RecorderModel ι)
    (channel_ids : Option (List ι)) : RecorderModel ι :=
  (channel_ids.getD ((s.channels.filter fun c => c.2).map (·.1))).foldl startOne s

/-- The worker threads recorded for one channel. -/
def threadsFor {ι : Type} [DecidableEq ι] (s : RecorderModel ι) (id : ι) : List ℕ :=
  (s.recording_threads.filter fun p => p.1 = id).map (·.2)

/-! ## Frame-level detector: theorems -/

/-- While not in a transmission, the (decayed) speech-frame counter has not
yet reached `speech_frames_to_start`. -/
def SpeechInv (cfg : VadConfig) (s : ProcState) : Prop :=
  s.is_in_transmission = false → s.speech_frame_count < cfg.speech_frames_to_start

lemma speechInv_init (cfg : VadConfig) (hstart : 1 ≤ cfg.speech_frames_to_start) :
    SpeechInv cfg initState := by
  intro _
  simpa [initState] using hstart

lemma speechInv_step (cfg : VadConfig) (hstart : 1 ≤ cfg.speech_frames_to_start)
    (s : ProcState) (f : Frame) (h : SpeechInv cfg s) :
    SpeechInv cfg (process_frame cfg s f).1 := by
  unfold SpeechInv at h ⊢
  unfold process_frame
  by_cases hv : simple_vad cfg f
  · by_cases hin : s.is_in_transmission
    · simp [hv, hin]
    · by_cases hge : cfg.speech_frames_to_start ≤ s.speech_frame_count + 1
      · simp [hv, hin, hge]
      · simp [hv, hin, hge]
        omega
  · by_cases hin : s.is_in_transmission
    · by_cases hcl : cfg.hang_time_frames ≤ s.silence_frame_count + 1
      · by_cases hlen : lengthOk cfg ((s.current_transmission.map (· ++ f)).getD []).length
        · simp [hv, hin, hcl, hlen]
          omega
        · simp [hv, hin, hcl, hlen]
          omega
      · simp [hv, hin, hcl]
    · simp [hv, hin]
      have := h (by simpa using hin)
      omega

lemma speechInv_runAux (cfg : VadConfig) (hstart : 1 ≤ cfg.speech_frames_to_start)
    (fs : List Frame) (s : ProcState) (h : SpeechInv cfg s) :
    SpeechInv cfg (runFrames cfg s fs) := by
  induction fs generalizing s with
  | nil => simpa [runFrames] using h
  | cons f fs ih =>
      simp only [runFrames]
      exact ih _ (speechInv_step cfg hstart s f h)

/-- C1: for a fresh frame-level detector, the IDLE-to-ACTIVE transition
happens exactly on a speech frame at which the decayed speech-frame counter
reaches `speech_frames_to_start`. -/
theorem active_transition_iff_counter_reaches_start (cfg : VadConfig)
    (hstart : 1 ≤ cfg.speech_frames_to_start) (fs : List Frame) (f : Frame)
    (hidle : (runFrames cfg initState fs).is_in_transmission = false) :
    (process_frame cfg (runFrames cfg initState fs) f).1.is_in_transmission = true ↔
      (simple_vad cfg f = true ∧
        (runFrames cfg initState fs).speech_frame_count + 1 = cfg.speech_frames_to_start) := by
  have hinv : SpeechInv cfg (runFrames cfg initState fs) :=
    speechInv_runAux cfg hstart fs initState (speechInv_init cfg hstart)
  have hlt := hinv hidle
  by_cases hv : simple_vad cfg f
  · simp [process_frame, hv, hidle]
    omega
  · simp [process_frame, hv, hidle]

/-- A concrete speech frame: energy 20 and zero-crossing rate 1/5. -/
def spFrameA : Frame := (1 : ℚ) :: (-1 : ℚ) :: List.replicate 18 (1 : ℚ)

/-- A concrete silent (non-speech) frame. -/
def nsFrameA : Frame := List.replicate 20 (0 : ℚ)

/-- The default detector configuration of `AudioProcessor.__init__`
(16 kHz, 20 ms frames, `speech_frames_to_start = 7`,
`hang_time_frames = int(400/20) = 20`, `preroll_frames = int(250/20) = 12`). -/
def cfgA : VadConfig :=
  { energy_threshold := 1/125000, zcr_min := 2/25, zcr_max := 8/25
    speech_frames_to_start := 7, hang_time_frames := 20, preroll_frames := 12
    min_transmission_ms := 2000, max_transmission_ms := 30000
    target_sample_rate := 16000 }

set_option maxRecDepth 8000 in
/-- Witness for C1: with the default configuration, after 6 non-speech
frames and 6 speech frames the detector is still idle with counter 6, and
the 7th speech frame of the run makes it ACTIVE. -/
theorem active_transition_witness :
    simple_vad cfgA spFrameA = true ∧
    (runFrames cfgA initState
      (List.replicate 6 nsFrameA ++ List.replicate 6 spFrameA)).is_in_transmission = false ∧
    (process_frame cfgA
      (runFrames cfgA initState (List.replicate 6 nsFrameA ++ List.replicate 6 spFrameA))
      spFrameA).1.is_in_transmission = true := by
  have hsv : simple_vad cfgA spFrameA = true := by
    norm_num [simple_vad, frameEnergy, frameZcr, sumAbsDiff, qsign, cfgA, spFrameA,
      List.replicate]
  have hkey : (runFrames cfgA initState
      (List.replicate 6 nsFrameA ++ List.replicate 6 spFrameA)).is_in_transmission = false ∧
      (runFrames cfgA initState
        (List.replicate 6 nsFrameA ++ List.replicate 6 spFrameA)).speech_frame_count = 6 := by
    norm_num [runFrames, process_frame, simple_vad, frameEnergy, frameZcr, sumAbsDiff,
      qsign, pushPreroll, durationMs, lengthOk, initState, cfgA, spFrameA, nsFrameA,
      List.replicate]
  refine ⟨hsv, hkey.1, ?_⟩
  exact (active_transition_iff_counter_reaches_start cfgA (by norm_num [cfgA]) _ _
    hkey.1).mpr ⟨hsv, by rw [hkey.2]; rfl⟩

/-- While in a transmission, the silence-frame counter has not yet reached
`hang_time_frames`. -/
def SilenceInv (cfg : VadConfig) (s : ProcState) : Prop :=
  s.is_in_transmission = true → s.silence_frame_count < cfg.hang_time_frames

lemma silenceInv_init (cfg : VadConfig) : SilenceInv cfg initState := by
  intro h
  simp [initState] at h

lemma silenceInv_step (cfg : VadConfig) (hhang : 1 ≤ cfg.hang_time_frames)
    (s : ProcState) (f : Frame) (_h : SilenceInv cfg s) :
    SilenceInv cfg (process_frame cfg s f).1 := by
  unfold SilenceInv
  unfold process_frame
  by_cases hv : simple_vad cfg f
  · simp [hv]
    omega
  · by_cases hin : s.is_in_transmission
    · by_cases hcl : cfg.hang_time_frames ≤ s.silence_frame_count + 1
      · by_cases hlen : lengthOk cfg ((s.current_transmission.map (· ++ f)).getD []).length
        · simp [hv, hin, hcl, hlen]
        · simp [hv, hin, hcl, hlen]
      · simp [hv, hin, hcl]
        omega
    · simp [hv, hin]

lemma silenceInv_runAux (cfg : VadConfig) (hhang : 1 ≤ cfg.hang_time_frames)
    (fs : List Frame) (s : ProcState) (h : SilenceInv cfg s) :
    SilenceInv cfg (runFrames cfg s fs) := by
  induction fs generalizing s with
  | nil => simpa [runFrames] using h
  | cons f fs ih =>
      simp only [runFrames]
      exact ih _ (silenceInv_step cfg hhang s f h)

/-- C2 (amended): `hang_time_frames` is obtained by truncating
`hang_time_ms / frame_duration_ms` (so 400/20 gives 20), and a reachable
ACTIVE transmission closes exactly on a non-speech frame at which the
silence-frame counter reaches `hang_time_frames`. -/
theorem hang_time_closure :
    hangTimeFramesOf 400 20 = 20 ∧
    ∀ (cfg : VadConfig) (fs : List Frame) (f : Frame),
      1 ≤ cfg.hang_time_frames →
      (runFrames cfg initState fs).is_in_transmission = true →
      ((process_frame cfg (runFrames cfg initState fs) f).1.is_in_transmission = false ↔
        (simple_vad cfg f = false ∧
          (runFrames cfg initState fs).silence_frame_count + 1 = cfg.hang_time_frames)) := by
  constructor
  · norm_num [hangTimeFramesOf, pyInt]
  · intro cfg fs f hhang hactive
    have hinv : SilenceInv cfg (runFrames cfg initState fs) :=
      silenceInv_runAux cfg hhang fs initState (silenceInv_init cfg)
    have hlt := hinv hactive
    by_cases hv : simple_vad cfg f
    · simp [process_frame, hv, hactive]
    · by_cases hcl : cfg.hang_time_frames ≤
          (runFrames cfg initState fs).silence_frame_count + 1
      · by_cases hlen : lengthOk cfg
            (((runFrames cfg initState fs).current_transmission.map (· ++ f)).getD []).length
        · simp [process_frame, hv, hactive, hcl, hlen]
          omega
        · simp [process_frame, hv, hactive, hcl, hlen]
          omega
      · simp [process_frame, hv, hactive, hcl]
        omega

/-- Configuration for the hang-time scenario: as `cfgA` but a transmission
starts on the first speech frame. -/
def cfgB : VadConfig :=
  { energy_threshold := 1/125000, zcr_min := 2/25, zcr_max := 8/25
    speech_frames_to_start := 1, hang_time_frames := 20, preroll_frames := 12
    min_transmission_ms := 2000, max_transmission_ms := 30000
    target_sample_rate := 16000 }

set_option maxRecDepth 8000 in
/-- Witness for C2: with `hang_time_frames = 20` (400 ms / 20 ms), after an
ACTIVE start and 19 consecutive non-speech frames the detector is still
ACTIVE, and the 20th consecutive non-speech frame closes it. -/
theorem hang_time_closure_witness :
    (runFrames cfgB initState
      (spFrameA :: List.replicate 19 nsFrameA)).is_in_transmission = true ∧
    (process_frame cfgB (runFrames cfgB initState (spFrameA :: List.replicate 19 nsFrameA))
      nsFrameA).1.is_in_transmission = false := by
  have hkey : (runFrames cfgB initState
      (spFrameA :: List.replicate 19 nsFrameA)).is_in_transmission = true ∧
      (runFrames cfgB initState
        (spFrameA :: List.replicate 19 nsFrameA)).silence_frame_count = 19 := by
    norm_num [runFrames, process_frame, simple_vad, frameEnergy, frameZcr, sumAbsDiff,
      qsign, pushPreroll, durationMs, lengthOk, initState, cfgB, spFrameA, nsFrameA,
      List.replicate]
  have hns : simple_vad cfgB nsFrameA = false := by
    norm_num [simple_vad, frameEnergy, frameZcr, sumAbsDiff, qsign, cfgB, nsFrameA,
      List.replicate]
  refine ⟨hkey.1, ?_⟩
  exact (hang_time_closure.2 cfgB _ nsFrameA (by norm_num [cfgB]) hkey.1).mpr
    ⟨hns, by rw [hkey.2]; rfl⟩

/-- Configuration derived from `hang_time_ms = 390`, `frame_duration_ms = 20`:
the code's `int(390/20)` gives `hang_time_frames = 19`. -/
def cfgC : VadConfig :=
  { energy_threshold := 1/125000, zcr_min := 2/25, zcr_max := 8/25
    speech_frames_to_start := 1, hang_time_frames := 19, preroll_frames := 12
    min_transmission_ms := 2000, max_transmission_ms := 30000
    target_sample_rate := 16000 }

set_option maxRecDepth 8000 in
/-- Counterexample to C2 as stated: the code truncates
`hang_time_ms / frame_duration_ms` rather than rounding it.  For
`hang_time_ms = 390`, `frame_duration_ms = 20` the code computes 19 while
rounding gives 20, and the detector accordingly already closes after 19
consecutive non-speech frames. -/
theorem hang_time_rounding_counterexample :
    hangTimeFramesOf 390 20 = 19 ∧ round ((390 : ℚ) / 20) = 20 ∧ (19 : ℤ) ≠ 20 ∧
    (runFrames cfgC initState
      (spFrameA :: List.replicate 19 nsFrameA)).is_in_transmission = false := by
  refine ⟨by norm_num [hangTimeFramesOf, pyInt], ?_, by norm_num, ?_⟩
  · norm_num [round_eq]
  · norm_num [runFrames, process_frame, simple_vad, frameEnergy, frameZcr, sumAbsDiff,
      qsign, pushPreroll, durationMs, lengthOk, initState, cfgC, spFrameA, nsFrameA,
      List.replicate]

/-- Duration-boundary configuration: 1000 samples/s makes one sample one
millisecond, `min_transmission_ms = 2000`, closure after one silence frame. -/
def cfgD : VadConfig :=
  { energy_threshold := 1/125000, zcr_min := 2/25, zcr_max := 8/25
    speech_frames_to_start := 1, hang_time_frames := 1, preroll_frames := 12
    min_transmission_ms := 2000, max_transmission_ms := 30000
    target_sample_rate := 1000 }

/-- A short silent frame. -/
def nsSmall : Frame := [(0 : ℚ), 0]

/-- An ACTIVE state whose accumulator reaches exactly
`min_transmission_ms` once the closing frame is appended. -/
def sBoundaryMin : ProcState :=
  { preroll_buffer := []
    current_transmission := some (List.replicate 1998 (0 : ℚ))
    speech_frame_count := 3
    silence_frame_count := 0
    is_in_transmission := true }

/-- An ACTIVE state whose accumulator falls 1 ms short of
`min_transmission_ms` once the closing frame is appended. -/
def sBoundaryBelow : ProcState :=
  { preroll_buffer := []
    current_transmission := some (List.replicate 1997 (0 : ℚ))
    speech_frame_count := 3
    silence_frame_count := 0
    is_in_transmission := true }

/-- C3: a closing transmission is emitted as complete exactly when its
duration lies inclusively between `min_transmission_ms` and
`max_transmission_ms`; the segment-level span filter is the same inclusive
comparison; concretely, a duration of exactly 2000 ms is accepted at
`min_transmission_ms = 2000` and a duration of 1999 ms is discarded. -/
theorem emit_complete_iff_duration_in_bounds :
    (∀ (cfg : VadConfig) (s : ProcState) (f : Frame),
      (process_frame cfg s f).2.isSome = true ↔
        (simple_vad cfg f = false ∧ s.is_in_transmission = true ∧
          cfg.hang_time_frames ≤ s.silence_frame_count + 1 ∧
          cfg.min_transmission_ms ≤
            durationMs cfg ((s.current_transmission.map (· ++ f)).getD []).length ∧
          durationMs cfg ((s.current_transmission.map (· ++ f)).getD []).length ≤
            cfg.max_transmission_ms)) ∧
    (∀ min_length max_length tlen : ℤ,
      transmissionLengthOk min_length max_length tlen = true ↔
        (min_length ≤ tlen ∧ tlen ≤ max_length)) ∧
    (process_frame cfgD sBoundaryMin nsSmall).2 =
      some (List.replicate 1998 (0 : ℚ) ++ nsSmall) ∧
    durationMs cfgD 2000 = 2000 ∧
    (process_frame cfgD sBoundaryBelow nsSmall).2 = none ∧
    durationMs cfgD 1999 = 1999 := by
  refine ⟨?_, ?_, ?_, ?_, ?_, ?_⟩
  · intro cfg s f
    by_cases hv : simple_vad cfg f
    · simp [process_frame, hv]
    · rw [Bool.not_eq_true] at hv
      by_cases hin : s.is_in_transmission
      · by_cases hcl : cfg.hang_time_frames ≤ s.silence_frame_count + 1
        · by_cases hlen : lengthOk cfg ((s.current_transmission.map (· ++ f)).getD []).length
          · simp only [lengthOk, Bool.and_eq_true, decide_eq_true_eq] at hlen
            simp [process_frame, hv, hin, hcl, lengthOk, hlen.1, hlen.2]
          · simp only [lengthOk, Bool.and_eq_true, decide_eq_true_eq, not_and_or,
              not_le] at hlen
            simp only [process_frame, hv, Bool.false_eq_true, if_false, hin, if_true,
              if_pos hcl, lengthOk]
            rcases hlen with hl | hl <;> simp [not_le.mpr hl]
        · simp [process_frame, hv, hin, hcl]
      · simp [process_frame, hv, hin]
  · intro mn mx t
    simp [transmissionLengthOk]
  · have hns : simple_vad cfgD nsSmall = false := by
      norm_num [simple_vad, frameEnergy, frameZcr, sumAbsDiff, qsign, cfgD, nsSmall]
    simp only [process_frame, hns, Bool.false_eq_true, if_false, sBoundaryMin]
    norm_num [cfgD, lengthOk, durationMs, nsSmall]
  · norm_num [durationMs, cfgD]
  · have hns : simple_vad cfgD nsSmall = false := by
      norm_num [simple_vad, frameEnergy, frameZcr, sumAbsDiff, qsign, cfgD, nsSmall]
    simp only [process_frame, hns, Bool.false_eq_true, if_false, sBoundaryBelow]
    norm_num [cfgD, lengthOk, durationMs, nsSmall]
  · norm_num [durationMs, cfgD]

/-- C4: when a transmission is confirmed, the accumulator is seeded with
the whole preroll buffer (oldest first) followed by the confirming frame;
while it stays ACTIVE each frame is appended at the end; and the emitted
audio is exactly the accumulator with the closing frame appended. -/
theorem preroll_seeds_confirmed_transmission :
    ∀ (cfg : VadConfig) (s : ProcState) (f : Frame),
      (s.is_in_transmission = false →
        (process_frame cfg s f).1.is_in_transmission = true →
        (process_frame cfg s f).1.current_transmission =
          some (s.preroll_buffer.flatten ++ f)) ∧
      (s.is_in_transmission = true →
        (process_frame cfg s f).1.is_in_transmission = true →
        (process_frame cfg s f).1.current_transmission =
          s.current_transmission.map (· ++ f)) ∧
      (∀ a, (process_frame cfg s f).2 = some a →
        a = (s.current_transmission.map (· ++ f)).getD []) := by
  intro cfg s f
  refine ⟨?_, ?_, ?_⟩
  · intro hin hact
    by_cases hv : simple_vad cfg f
    · by_cases hge : cfg.speech_frames_to_start ≤ s.speech_frame_count + 1
      · simp [process_frame, hv, hin, hge]
      · simp [process_frame, hv, hin, hge] at hact
    · simp [process_frame, hv, hin] at hact
  · intro hin hact
    by_cases hv : simple_vad cfg f
    · simp [process_frame, hv, hin]
    · by_cases hcl : cfg.hang_time_frames ≤ s.silence_frame_count + 1
      · by_cases hlen : lengthOk cfg ((s.current_transmission.map (· ++ f)).getD []).length
        · simp [process_frame, hv, hin, hcl, hlen] at hact
        · simp [process_frame, hv, hin, hcl, hlen] at hact
      · simp [process_frame, hv, hin, hcl]
  · intro a ha
    by_cases hv : simple_vad cfg f
    · simp [process_frame, hv] at ha
    · by_cases hin : s.is_in_transmission
      · by_cases hcl : cfg.hang_time_frames ≤ s.silence_frame_count + 1
        · by_cases hlen : lengthOk cfg ((s.current_transmission.map (· ++ f)).getD []).length
          · simp [process_frame, hv, hin, hcl, hlen] at ha
            exact ha.symm
          · simp [process_frame, hv, hin, hcl, hlen] at ha
        · simp [process_frame, hv, hin, hcl] at ha
      · simp [process_frame, hv, hin] at ha

set_option maxRecDepth 8000 in
/-- Witness for C4: in the C1 scenario, the newly confirmed transmission's
accumulator is exactly the preroll buffer contents (oldest first) followed
by the confirming speech frame. -/
theorem preroll_seeds_witness :
    (process_frame cfgA
      (runFrames cfgA initState (List.replicate 6 nsFrameA ++ List.replicate 6 spFrameA))
      spFrameA).1.current_transmission =
      some ((runFrames cfgA initState
        (List.replicate 6 nsFrameA ++ List.replicate 6 spFrameA)).preroll_buffer.flatten ++
        spFrameA) := by
  have hidle : (runFrames cfgA initState
      (List.replicate 6 nsFrameA ++ List.replicate 6 spFrameA)).is_in_transmission = false := by
    norm_num [runFrames, process_frame, simple_vad, frameEnergy, frameZcr, sumAbsDiff,
      qsign, pushPreroll, durationMs, lengthOk, initState, cfgA, spFrameA, nsFrameA,
      List.replicate]
  have hact : (process_frame cfgA
      (runFrames cfgA initState (List.replicate 6 nsFrameA ++ List.replicate 6 spFrameA))
      spFrameA).1.is_in_transmission = true := by
    norm_num [runFrames, process_frame, simple_vad, frameEnergy, frameZcr, sumAbsDiff,
      qsign, pushPreroll, durationMs, lengthOk, initState, cfgA, spFrameA, nsFrameA,
      List.replicate]
  exact (preroll_seeds_confirmed_transmission cfgA _ spFrameA).1 hidle hact

lemma preroll_step_eq (cfg : VadConfig) (s : ProcState) (f : Frame) :
    (process_frame cfg s f).1.preroll_buffer =
      if (process_frame cfg s f).2.isSome then s.preroll_buffer
      else pushPreroll cfg.preroll_frames s.preroll_buffer f := by
  by_cases hv : simple_vad cfg f
  · simp [process_frame, hv]
  · by_cases hin : s.is_in_transmission
    · by_cases hcl : cfg.hang_time_frames ≤ s.silence_frame_count + 1
      · by_cases hlen : lengthOk cfg ((s.current_transmission.map (· ++ f)).getD []).length
        · simp [process_frame, hv, hin, hcl, hlen]
        · simp [process_frame, hv, hin, hcl, hlen]
      · simp [process_frame, hv, hin, hcl]
    · simp [process_frame, hv, hin]

lemma run_buffer_foldl (cfg : VadConfig) (fs : List Frame) (s : ProcState) :
    (runFrames cfg s fs).preroll_buffer =
      List.foldl (pushPreroll cfg.preroll_frames) s.preroll_buffer
        (pushedFrames cfg s fs) := by
  induction fs generalizing s with
  | nil => simp [runFrames, pushedFrames]
  | cons f fs ih =>
      simp only [runFrames, pushedFrames]
      by_cases he : (process_frame cfg s f).2.isSome
      · have hb := preroll_step_eq cfg s f
        rw [if_pos he] at hb
        rw [ih, hb]
        simp [he]
      · have hb := preroll_step_eq cfg s f
        rw [if_neg he] at hb
        rw [ih, hb]
        simp [he]

lemma pushPreroll_takeLast (N : ℕ) (acc : List Frame) (f : Frame) :
    pushPreroll N (takeLast N acc) f = takeLast N (acc ++ [f]) := by
  unfold pushPreroll takeLast
  rcases le_or_lt N acc.length with hle | hlt
  · have hlen : (acc.drop (acc.length - N)).length = N := by
      simp
      omega
    rw [if_pos (by simp [hlen])]
    rw [List.drop_append_eq_append_drop, List.drop_append_eq_append_drop,
      List.drop_drop]
    simp [hlen]
    have e1 : acc.length - N + 1 = acc.length + 1 - N := by omega
    have e2 : acc.length + 1 - N - acc.length = 1 - N := by omega
    rw [e1, e2]
  · rw [if_neg (by simp; omega)]
    rw [List.drop_append_eq_append_drop]
    have h1 : acc.length - N = 0 := by omega
    have h2 : acc.length + 1 - N = 0 := by omega
    simp [h1, h2]

lemma foldl_push_takeLast (N : ℕ) (l : List Frame) (acc : List Frame) :
    List.foldl (pushPreroll N) (takeLast N acc) l = takeLast N (acc ++ l) := by
  induction l generalizing acc with
  | nil => simp
  | cons f l ih =>
      simp only [List.foldl_cons]
      rw [pushPreroll_takeLast]
      rw [ih (acc ++ [f])]
      simp

/-- C5 (amended): every processed frame is pushed into the preroll ring
buffer with the oldest entry evicted beyond capacity, except on a call
that emits a completed transmission, which leaves the buffer untouched;
consequently, after any run from a fresh detector the buffer holds exactly
the most recent `min(pushedCount, preroll_frames)` of the pushed frames. -/
theorem preroll_buffer_contents :
    (∀ (cfg : VadConfig) (s : ProcState) (f : Frame),
      (process_frame cfg s f).1.preroll_buffer =
        if (process_frame cfg s f).2.isSome then s.preroll_buffer
        else pushPreroll cfg.preroll_frames s.preroll_buffer f) ∧
    (∀ (cfg : VadConfig) (fs : List Frame),
      (runFrames cfg initState fs).preroll_buffer =
        takeLast cfg.preroll_frames (pushedFrames cfg initState fs)) := by
  refine ⟨preroll_step_eq, ?_⟩
  intro cfg fs
  rw [run_buffer_foldl]
  have h0 : (initState.preroll_buffer) = takeLast cfg.preroll_frames [] := by
    simp [initState, takeLast]
  rw [h0, foldl_push_takeLast]
  simp

/-- Permissive configuration in which a two-frame run emits a completed
transmission on its second frame. -/
def cfgE : VadConfig :=
  { energy_threshold := 1/125000, zcr_min := 2/25, zcr_max := 8/25
    speech_frames_to_start := 1, hang_time_frames := 1, preroll_frames := 4
    min_transmission_ms := 0, max_transmission_ms := 1000000
    target_sample_rate := 16000 }

/-- Counterexample to C5 as stated: the frame whose call emits a completed
transmission is never pushed into the preroll buffer (the Python early
`return` skips the maintenance code), so after 2 frames with capacity 4 the
buffer holds only the first frame instead of both. -/
theorem preroll_push_counterexample :
    (runFrames cfgE initState [spFrameA, nsFrameA]).preroll_buffer = [spFrameA] ∧
    [spFrameA] ≠ [spFrameA, nsFrameA] := by
  constructor
  · norm_num [runFrames, process_frame, simple_vad, frameEnergy, frameZcr, sumAbsDiff,
      qsign, pushPreroll, durationMs, lengthOk, initState, cfgE, spFrameA, nsFrameA,
      List.replicate]
  · simp

/-- Counterexample to C6 as stated: the 5th consecutive failure already
takes the exponential branch, yielding 30 s, not 25 s. -/
theorem backoff_fifth_failure_counterexample :
    backoffDelay 5 = 30 ∧ (30 : ℕ) ≠ 25 := by
  decide

/-- C6 (amended): the backoff delay is `min(60, 5·c)` for failure counts
below `max_consecutive_failures = 5` and
`min(300, 30·2^min(c-5, 4))` from the 5th failure on, so the first six
consecutive failures wait 5, 10, 15, 20, 30 and 60 seconds. -/
theorem backoff_delay_schedule :
    (∀ c : ℕ,
      (c < max_consecutive_failures → backoffDelay c = min 60 (5 * c)) ∧
      (max_consecutive_failures ≤ c →
        backoffDelay c = min 300 (30 * 2 ^ min (c - max_consecutive_failures) 4))) ∧
    delaysOfRun 6 = [5, 10, 15, 20, 30, 60] := by
  constructor
  · intro c
    constructor
    · intro h
      unfold backoffDelay
      rw [if_neg (by omega)]
    · intro h
      unfold backoffDelay
      rw [if_pos h]
  · decide

/-- Witness for C6: the progressive branch at the 3rd failure and the
exponential branch at the 6th. -/
theorem backoff_delay_schedule_witness :
    backoffDelay 3 = min 60 (5 * 3) ∧
    backoffDelay 6 = min 300 (30 * 2 ^ min (6 - max_consecutive_failures) 4) :=
  ⟨(backoff_delay_schedule.1 3).1 (by decide), (backoff_delay_schedule.1 6).2 (by decide)⟩

/-- Counterexample to C9 as stated: with the default configured silence gap
of 600 ms, two runs separated by a 1000 ms gap would not be merged if the
configured gap were used, but the code merges them because its merge
threshold is the hard-coded 2000 ms. -/
theorem merge_gap_counterexample :
    mergeRanges [((0 : ℤ), (1000 : ℤ)), (2000, 3000)] = [(0, 3000)] ∧
    mergeRangesSpec 600 [((0 : ℤ), (1000 : ℤ)), (2000, 3000)] = [(0, 1000), (2000, 3000)] ∧
    mergeRanges [((0 : ℤ), (1000 : ℤ)), (2000, 3000)] ≠
      mergeRangesSpec 600 [((0 : ℤ), (1000 : ℤ)), (2000, 3000)] := by
  refine ⟨?_, ?_, ?_⟩ <;> decide

/-- C9 (amended): adjacent detected runs are merged exactly when the gap
between them is less than the fixed 2000 ms `merge_gap_threshold`,
independently of the channel's configured silence gap (which is used only
as the minimum silence length during non-silent-range detection). -/
theorem merge_uses_fixed_gap :
    (∀ ranges : List (ℤ × ℤ), mergeRanges ranges = mergeRangesSpec 2000 ranges) ∧
    (∀ r1 r2 : ℤ × ℤ, mergeRanges [r1, r2] =
      if r2.1 - r1.2 < 2000 then [(r1.1, r2.2)] else [r1, r2]) := by
  constructor
  · intro rs
    rfl
  · intro r1 r2
    simp [mergeRanges, mergeStep, merge_gap_threshold]

lemma startOne_preserves_recording {ι : Type} [DecidableEq ι]
    (s : RecorderModel ι) (id ch : ι) (h : ch ∈ s.is_recording) :
    ch ∈ (startOne s id).is_recording ∧
      threadsFor (startOne s id) ch = threadsFor s ch := by
  unfold startOne
  by_cases hg : ((s.channels.any fun c => c.1 = id) && !(decide (id ∈ s.is_recording))) = true
  · have hid : id ∉ s.is_recording := by
      simp only [Bool.and_eq_true, Bool.not_eq_true', decide_eq_false_iff_not] at hg
      exact hg.2
    have hne : id ≠ ch := fun he => hid (he ▸ h)
    rw [if_pos hg]
    constructor
    · exact List.mem_append_left _ h
    · unfold threadsFor
      simp [List.filter_append, hne]
  · rw [if_neg hg]
    exact ⟨h, rfl⟩

lemma foldl_startOne_preserves_recording {ι : Type} [DecidableEq ι]
    (l : List ι) (s : RecorderModel ι) (ch : ι) (h : ch ∈ s.is_recording) :
    ch ∈ (l.foldl startOne s).is_recording ∧
      threadsFor (l.foldl startOne s) ch = threadsFor s ch := by
  induction l generalizing s with
  | nil => exact ⟨h, rfl⟩
  | cons id l ih =>
      simp only [List.foldl_cons]
      have h1 := startOne_preserves_recording s id ch h
      have h2 := ih (startOne s id) h1.1
      exact ⟨h2.1, h2.2.trans h1.2⟩

/-- Per-channel thread bookkeeping invariant: a recording channel has at
most one worker thread, a non-recording channel has none. -/
def ThreadInv {ι : Type} [DecidableEq ι] (s : RecorderModel ι) : Prop :=
  ∀ ch : ι, (ch ∈ s.is_recording → (threadsFor s ch).length ≤ 1) ∧
    (ch ∉ s.is_recording → threadsFor s ch = [])

lemma threadInv_startOne {ι : Type} [DecidableEq ι]
    (s : RecorderModel ι) (id : ι) (h : ThreadInv s) : ThreadInv (startOne s id) := by
  unfold startOne
  by_cases hg : ((s.channels.any fun c => c.1 = id) && !(decide (id ∈ s.is_recording))) = true
  · have hid : id ∉ s.is_recording := by
      simp only [Bool.and_eq_true, Bool.not_eq_true', decide_eq_false_iff_not] at hg
      exact hg.2
    rw [if_pos hg]
    intro ch
    by_cases he : ch = id
    · subst he
      constructor
      · intro _
        have hz := (h ch).2 hid
        unfold threadsFor at hz ⊢
        simp only [List.filter_append, List.map_append, hz, List.nil_append]
        simp
      · intro hmem
        exact absurd (List.mem_append_right _ (by simp)) hmem
    · have hth : threadsFor
          { s with is_recording := s.is_recording ++ [id]
                   recording_threads := s.recording_threads ++ [(id, s.next_tid)]
                   next_tid := s.next_tid + 1 } ch = threadsFor s ch := by
        unfold threadsFor
        simp only [List.filter_append, List.map_append]
        have : (fun p => decide (p.1 = ch)) ((id, s.next_tid)) = false := by
          simp
          exact fun hx => he hx.symm
        simp [this, List.filter_cons]
      have hmm : ch ∈ s.is_recording ++ [id] ↔ ch ∈ s.is_recording := by
        simp [he]
      constructor
      · intro hmem
        rw [hth]
        exact (h ch).1 (hmm.mp hmem)
      · intro hmem
        rw [hth]
        exact (h ch).2 fun hc => hmem (hmm.mpr hc)
  · rw [if_neg hg]
    exact h

lemma threadInv_foldl {ι : Type} [DecidableEq ι]
    (l : List ι) (s : RecorderModel ι) (h : ThreadInv s) :
    ThreadInv (l.foldl startOne s) := by
  induction l generalizing s with
  | nil => exact h
  | cons id l ih =>
      simp only [List.foldl_cons]
      exact ih _ (threadInv_startOne s id h)

lemma threadInv_ops {ι : Type} [DecidableEq ι]
    (ops : List (Option (List ι))) (s : RecorderModel ι) (h : ThreadInv s) :
    ThreadInv (ops.foldl start_recording s) := by
  induction ops generalizing s with
  | nil => exact h
  | cons op ops ih =>
      simp only [List.foldl_cons]
      exact ih _ (threadInv_foldl _ s h)

/-- C10: `start_recording` is idempotent per channel — a call covering an
already-recording channel leaves its flag and its thread entries unchanged
and spawns nothing for it — and over any sequence of `start_recording`
calls from a fresh recorder every channel has at most one worker thread. -/
theorem start_recording_idempotent :
    (∀ (ι : Type) [DecidableEq ι] (s : RecorderModel ι) (ids : Option (List ι)) (ch : ι),
      ch ∈ s.is_recording →
        (ch ∈ (start_recording s ids).is_recording ∧
          threadsFor (start_recording s ids) ch = threadsFor s ch)) ∧
    (∀ (ι : Type) [DecidableEq ι] (channels : List (ι × Bool))
      (ops : List (Option (List ι))) (ch : ι),
      (threadsFor (ops.foldl start_recording (initRecorder channels)) ch).length ≤ 1) := by
  constructor
  · intro ι _ s ids ch h
    exact foldl_startOne_preserves_recording _ s ch h
  · intro ι _ channels ops ch
    have hinit : ThreadInv (initRecorder channels) := by
      intro c
      constructor
      · intro hmem
        simp [initRecorder] at hmem
      · intro _
        simp [threadsFor, initRecorder]
    have hinv := threadInv_ops ops (initRecorder channels) hinit
    by_cases hmem : ch ∈ (ops.foldl start_recording (initRecorder channels)).is_recording
    · exact (hinv ch).1 hmem
    · rw [(hinv ch).2 hmem]
      simp

/-! ## Auto-tuner: theorems -/

/-- C7 (amended): past the sample-count gate, the energy-threshold rule is
first-match-wins (false positives before sensitivity), and the ZCR-band
recommendation `[max(0.01, 0.8·p5), min(0.9, 1.2·p95)]` is present exactly
when both percentiles are positive (not always). -/
theorem tuner_recommendation_rules
    (ms : List MetricsSample) (min_samples_required : ℕ) (sensitivity_factor : ℚ)
    (a : TunerAnalysis) (r : TunerRecommendations)
    (h : analyzeChannelPerformance ms min_samples_required sensitivity_factor = some (a, r)) :
    (0.2 < a.false_positive_rate →
      r.energy_threshold = some (a.speech_threshold * 0.8) ∧
      r.energy_threshold_reason = some "Reducing false positives") ∧
    (a.false_positive_rate ≤ 0.2 → 0.1 < a.potential_missed_rate →
      r.energy_threshold = some (a.noise_floor * sensitivity_factor)) ∧
    (0 < a.zcr_p5 → 0 < a.zcr_p95 →
      r.zcr_min = some (max 0.01 (a.zcr_p5 * 0.8)) ∧
      r.zcr_max = some (min 0.9 (a.zcr_p95 * 1.2))) ∧
    (¬(0 < a.zcr_p5 ∧ 0 < a.zcr_p95) → r.zcr_min = none ∧ r.zcr_max = none) := by
  unfold analyzeChannelPerformance at h
  by_cases hlen : ms.length < min_samples_required
  · rw [if_pos hlen] at h
    exact absurd h (by simp)
  · rw [if_neg hlen] at h
    simp only [Option.some.injEq, Prod.mk.injEq] at h
    obtain ⟨ha, hr⟩ := h
    subst ha
    subst hr
    refine ⟨?_, ?_, ?_, ?_⟩
    · intro hfp
      constructor <;> simp [calcParameterRecommendations, hfp]
    · intro hfp hpm
      simp [calcParameterRecommendations, not_lt.mpr hfp, hpm]
    · intro h5 h95
      constructor <;> simp [calcParameterRecommendations, h5, h95]
    · intro hz
      constructor <;> simp [calcParameterRecommendations, hz]

/-- Metric samples for the C7 witness: 4 recorded samples, one of them
with speech probability below 0.3 (false-positive rate 1/4). -/
def ms7w : List MetricsSample :=
  [{ energy_level := 1/100, zcr := 1/10, was_recorded := true,
     recording_duration_ms := 2000, speech_probability := 1/5 },
   { energy_level := 1/100, zcr := 1/10, was_recorded := true,
     recording_duration_ms := 2000, speech_probability := 4/5 },
   { energy_level := 1/100, zcr := 1/10, was_recorded := true,
     recording_duration_ms := 2000, speech_probability := 4/5 },
   { energy_level := 1/100, zcr := 1/10, was_recorded := true,
     recording_duration_ms := 2000, speech_probability := 4/5 }]

/-- Witness for C7: a false-positive rate of 1/4 yields the
energy-threshold recommendation `0.8 × speech threshold` with the
"Reducing false positives" rationale. -/
theorem tuner_recommendation_rules_witness :
    (calcParameterRecommendations (performStatisticalAnalysis ms7w) (3/2)).energy_threshold =
      some ((performStatisticalAnalysis ms7w).speech_threshold * 0.8) ∧
    (calcParameterRecommendations (performStatisticalAnalysis ms7w) (3/2)).energy_threshold_reason =
      some "Reducing false positives" := by
  have h : analyzeChannelPerformance ms7w 2 (3/2) =
      some (performStatisticalAnalysis ms7w,
        calcParameterRecommendations (performStatisticalAnalysis ms7w) (3/2)) := by
    simp [analyzeChannelPerformance, ms7w]
  have hfp : (0.2 : ℚ) < (performStatisticalAnalysis ms7w).false_positive_rate := by
    norm_num [performStatisticalAnalysis, ms7w]
  exact (tuner_recommendation_rules ms7w 2 (3/2) _ _ h).1 hfp

/-- Metric samples refuting "ZCR band always recommended": both recorded
samples have zero ZCR, so the 5th percentile is 0. -/
def ms7 : List MetricsSample :=
  [{ energy_level := 1, zcr := 0, was_recorded := true,
     recording_duration_ms := 2000, speech_probability := 9/10 },
   { energy_level := 1, zcr := 0, was_recorded := true,
     recording_duration_ms := 2000, speech_probability := 9/10 }]

/-- Counterexample to C7 as stated: with enough samples but an all-zero
recorded ZCR distribution, no ZCR-band recommendation is produced
(the code requires both percentiles to be positive). -/
theorem tuner_zcr_always_counterexample :
    2 ≤ ms7.length ∧
    (calcParameterRecommendations (performStatisticalAnalysis ms7) (3/2)).zcr_min = none ∧
    (calcParameterRecommendations (performStatisticalAnalysis ms7) (3/2)).zcr_max = none := by
  refine ⟨by simp [ms7], ?_, ?_⟩ <;>
    norm_num [calcParameterRecommendations, performStatisticalAnalysis, percentile,
      medianQ, sortQ, insertSorted, ms7]

/-- C8 (amended): an Auto-Tuner write clamps each recommended value only
against its own constant bound — written `zcr_min` is at least 0.01,
written `zcr_max` is at most 0.9, written `min_transmission_ms` is at
least 1000, and `max_transmission_ms` is never written — but it does not
enforce `zcr_min < zcr_max` or `min_transmission_ms < max_transmission_ms`. -/
theorem tuner_write_bounds
    (v : VadParams) (ms : List MetricsSample) (min_samples_required : ℕ)
    (sensitivity_factor : ℚ) (a : TunerAnalysis) (r : TunerRecommendations)
    (h : analyzeChannelPerformance ms min_samples_required sensitivity_factor = some (a, r)) :
    (r.zcr_min.isSome = true → (0.01 : ℚ) ≤ (applyRecommendations v r).zcr_min) ∧
    (r.zcr_max.isSome = true → (applyRecommendations v r).zcr_max ≤ 0.9) ∧
    (r.min_transmission_ms.isSome = true →
      (1000 : ℚ) ≤ (applyRecommendations v r).min_transmission_ms) ∧
    (applyRecommendations v r).max_transmission_ms = v.max_transmission_ms := by
  unfold analyzeChannelPerformance at h
  by_cases hlen : ms.length < min_samples_required
  · rw [if_pos hlen] at h
    exact absurd h (by simp)
  · rw [if_neg hlen] at h
    simp only [Option.some.injEq, Prod.mk.injEq] at h
    obtain ⟨ha, hr⟩ := h
    subst ha
    subst hr
    refine ⟨?_, ?_, ?_, rfl⟩
    · intro hsome
      by_cases hz : 0 < (performStatisticalAnalysis ms).zcr_p5 ∧
          0 < (performStatisticalAnalysis ms).zcr_p95
      · simp [applyRecommendations, calcParameterRecommendations, hz]
      · simp [calcParameterRecommendations, hz] at hsome
    · intro hsome
      by_cases hz : 0 < (performStatisticalAnalysis ms).zcr_p5 ∧
          0 < (performStatisticalAnalysis ms).zcr_p95
      · simp [applyRecommendations, calcParameterRecommendations, hz]
      · simp [calcParameterRecommendations, hz] at hsome
    · intro hsome
      by_cases hs : (0.3 : ℚ) < (performStatisticalAnalysis ms).short_recording_rate
      · simp [applyRecommendations, calcParameterRecommendations, hs]
      · simp [calcParameterRecommendations, hs] at hsome

/-- Metric samples for the C8 counterexample: both recorded samples have
ZCR 1/200, so `0.8·p5 = 1/250` clamps up to 0.01 while `1.2·p95 = 3/500`
stays below it. -/
def ms8 : List MetricsSample :=
  [{ energy_level := 1, zcr := 1/200, was_recorded := true,
     recording_duration_ms := 0, speech_probability := 1/2 },
   { energy_level := 1, zcr := 1/200, was_recorded := true,
     recording_duration_ms := 0, speech_probability := 1/2 }]

/-- The default channel `vad` dict of `AudioProcessor.__init__`. -/
def v0 : VadParams :=
  { energy_threshold := 1/125000, zcr_min := 2/25, zcr_max := 8/25
    min_transmission_ms := 2000, max_transmission_ms := 30000
    speech_frames_to_start := 7 }

/-- Counterexample to C8 as stated: applying the tuner's recommendations
for `ms8` writes `zcr_min = 1/100` and `zcr_max = 3/500`, violating
`zcr_min < zcr_max` — no clamping against the ordering is performed. -/
theorem tuner_write_ordering_counterexample :
    2 ≤ ms8.length ∧
    (applyRecommendations v0 (calcParameterRecommendations
      (performStatisticalAnalysis ms8) (3/2))).zcr_min = 1/100 ∧
    (applyRecommendations v0 (calcParameterRecommendations
      (performStatisticalAnalysis ms8) (3/2))).zcr_max = 3/500 ∧
    ¬((applyRecommendations v0 (calcParameterRecommendations
        (performStatisticalAnalysis ms8) (3/2))).zcr_min <
      (applyRecommendations v0 (calcParameterRecommendations
        (performStatisticalAnalysis ms8) (3/2))).zcr_max) := by
  refine ⟨by simp [ms8], ?_, ?_, ?_⟩ <;>
    norm_num [applyRecommendations, calcParameterRecommendations,
      performStatisticalAnalysis, percentile, medianQ, sortQ, insertSorted, ms8, v0]

/-- Witness for C8: on the `ms8` analysis the written `zcr_min` is at
least 0.01 and `max_transmission_ms` is untouched. -/
theorem tuner_write_bounds_witness :
    (0.01 : ℚ) ≤ (applyRecommendations v0 (calcParameterRecommendations
      (performStatisticalAnalysis ms8) (3/2))).zcr_min ∧
    (applyRecommendations v0 (calcParameterRecommendations
      (performStatisticalAnalysis ms8) (3/2))).max_transmission_ms = v0.max_transmission_ms := by
  have h : analyzeChannelPerformance ms8 2 (3/2) =
      some (performStatisticalAnalysis ms8,
        calcParameterRecommendations (performStatisticalAnalysis ms8) (3/2)) := by
    simp [analyzeChannelPerformance, ms8]
  have hsome : (calcParameterRecommendations
      (performStatisticalAnalysis ms8) (3/2)).zcr_min.isSome = true := by
    norm_num [calcParameterRecommendations, performStatisticalAnalysis, percentile,
      medianQ, sortQ, insertSorted, ms8]
  exact ⟨(tuner_write_bounds v0 ms8 2 (3/2) _ _ h).1 hsome,
    (tuner_write_bounds v0 ms8 2 (3/2) _ _ h).2.2.2⟩

/-- A one-channel recorder after its first `start_recording` call. -/
def recAfterStart : RecorderModel ℕ :=
  start_recording (initRecorder [((0 : ℕ), true)]) none

/-- Witness for C10: channel 0 is recording after the first call, and a
second `start_recording` call naming it changes neither its flag nor its
thread entries. -/
theorem start_recording_idempotent_witness :
    0 ∈ recAfterStart.is_recording ∧
    0 ∈ (start_recording recAfterStart (some [0])).is_recording ∧
    threadsFor (start_recording recAfterStart (some [0])) 0 = threadsFor recAfterStart 0 := by
  have h : 0 ∈ recAfterStart.is_recording := by
    decide
  exact ⟨h, (start_recording_idempotent.1 ℕ recAfterStart (some [0]) 0 h).1,
    (start_recording_idempotent.1 ℕ recAfterStart (some [0]) 0 h).2⟩
